import Mathlib

/-!
# Verification of the tabular ingestion & normalization pipeline

Shallow embedding of `preprocess_and_save` from `src/data_analyst.py`
(pandas-based ingestion: CSV parsing with sentinel nulls, quote sanitization,
per-column type coercion, and staged CSV serialization), together with proofs
settling the frozen claims about the pipeline.

Conventions of the embedding:
* a pandas column is a `PdCol`: `obj` (dtype `object`, cells `Option String`,
  `none` = `NaN`), `nums` (dtype `int64`/`float64`, cells `Option ℚ`,
  `none` = `NaN`; machine-float rounding and infinities are outside the model,
  values are exact rationals), `dts` (dtype `datetime64[ns]`, cells `Option ℤ`
  nanoseconds since the epoch, `none` = `NaT`);
* the permissive date parser (`dateutil` under `pd.to_datetime`) is modelled
  on its ISO `YYYY-MM-DD` fragment — every claim below is parametric in which
  strings parse, none depends on the parser's coverage;
* numeric parsing (`pd.to_numeric` and `read_csv`'s numeric inference) is
  modelled by a decimal parser over ℚ (sign, digits, optional decimal point,
  optional exponent, `nan`).
-/

namespace DataAnalyst

/-! ## Quote sanitization (line 30: `.replace({r'"': '""'}, regex=True)`)

The regex replace doubles every literal `"` character of a string cell.
`df.to_csv` later applies the same doubling to the `"` characters of each
field it quotes (default `doublequote=True`), so one list-level operation
models both. -/

/-- Double every `"` character of a character list. -/
def dq : List Char → List Char
  | [] => []
  | c :: cs => if c = '"' then '"' :: '"' :: dq cs else c :: dq cs

/-- `sanitize` on strings: the quote-doubling applied to every cell of an
`object`-dtype column at line 30 of `data_analyst.py`. -/
def sanitize (s : String) : String := ⟨dq s.toList⟩

/-- `str(cell)` as `astype(str)` performs it at line 30: a string cell is kept,
a `NaN` cell is rendered as the literal string `"nan"`. -/
def cellStr : Option String → String
  | none => "nan"
  | some s => s

/-! ## Numeric parsing (`pd.to_numeric`, `read_csv` numeric inference) -/

/-- Characters that may appear in a numeral accepted by the numeric parser. -/
def numChar (c : Char) : Bool :=
  c.isDigit || c = '.' || c = '+' || c = '-' || c = 'e' || c = 'E'

/-- Value of a digit string (most significant first). -/
def digitsVal (cs : List Char) : Nat :=
  cs.foldl (fun a c => 10 * a + (c.toNat - '0'.toNat)) 0

/-- Split an optional leading sign; returns (isNegative, rest). -/
def splitSign : List Char → Bool × List Char
  | '-' :: cs => (true, cs)
  | '+' :: cs => (false, cs)
  | cs => (false, cs)

/-- Parse an unsigned mantissa: digits with an optional decimal point. -/
def parseMant (cs : List Char) : Option ℚ :=
  let ip := cs.takeWhile Char.isDigit
  let rest := cs.dropWhile Char.isDigit
  match rest with
  | [] => if ip = [] then none else some (digitsVal ip)
  | '.' :: fp =>
    if fp.all Char.isDigit ∧ (ip ≠ [] ∨ fp ≠ []) then
      some ((digitsVal ip : ℚ) + (digitsVal fp : ℚ) / (10 : ℚ) ^ fp.length)
    else none
  | _ => none

/-- Parse a signed exponent (digits required). -/
def parseExp (cs : List Char) : Option ℤ :=
  let p := splitSign cs
  if p.2 ≠ [] ∧ p.2.all Char.isDigit then
    some (if p.1 then -(digitsVal p.2 : ℤ) else (digitsVal p.2 : ℤ))
  else none

/-- Parse a decimal numeral (optional sign, digits, optional decimal point,
optional exponent). Any character outside the numeral alphabet rejects. -/
def parseDec (cs : List Char) : Option ℚ :=
  if cs.all numChar then
    let p := splitSign cs
    let mant := p.2.takeWhile fun c => c.isDigit || c = '.'
    let rest := p.2.dropWhile fun c => c.isDigit || c = '.'
    match parseMant mant with
    | none => none
    | some q =>
      let q := if p.1 then -q else q
      match rest with
      | [] => some q
      | 'e' :: ecs => (parseExp ecs).map fun e => q * (10 : ℚ) ^ e
      | 'E' :: ecs => (parseExp ecs).map fun e => q * (10 : ℚ) ^ e
      | _ => none
  else none

/-- `pd.to_numeric` on one string: `some none` is a parse to float `NaN`,
`some (some q)` a parse to the number `q`, `none` a parse failure (which makes
`pd.to_numeric` raise on the enclosing column). -/
def parseNum (s : String) : Option (Option ℚ) :=
  if s = "nan" ∨ s = "NaN" then some none
  else (parseDec s.toList).map some

/-! ## Timestamp parsing and arithmetic (`pd.to_datetime(..., errors="coerce")`)

Timestamps are nanoseconds since the Unix epoch (the `datetime64[ns]` unit).
String parsing models the ISO `YYYY-MM-DD` fragment of the permissive parser;
numeric input is interpreted as nanoseconds since the epoch, exactly as
`pd.to_datetime` treats numeric columns. -/

/-- Nanoseconds in one day. -/
def nsPerDay : ℤ := 86400000000000

/-- Gregorian leap year. -/
def isLeap (y : ℤ) : Bool := (y % 4 = 0 ∧ y % 100 ≠ 0) ∨ y % 400 = 0

/-- Days in a month of a given year (months `1..12`). -/
def daysInMonth (y : ℤ) (m : Nat) : Nat :=
  if m = 2 then (if isLeap y then 29 else 28)
  else if m = 4 ∨ m = 6 ∨ m = 9 ∨ m = 11 then 30
  else 31

/-- Days from the epoch (1970-01-01) to a civil date (Hinnant's algorithm,
using truncating integer division as the source language does). -/
def daysFromCivil (y : ℤ) (m d : Nat) : ℤ :=
  let y' := y - (if m ≤ 2 then 1 else 0)
  let era := (if 0 ≤ y' then y' else y' - 399).tdiv 400
  let yoe := y' - era * 400
  let doy : ℤ := ((153 * ((m : ℤ) + (if 2 < m then -3 else 9)) + 2).tdiv 5) + (d : ℤ) - 1
  let doe := yoe * 365 + yoe.tdiv 4 - yoe.tdiv 100 + doy
  era * 146097 + doe - 719468

/-- Characters admissible in a date string of the modelled fragment. -/
def tsChar (c : Char) : Bool := c.isDigit || c = '-'

/-- Parse one string as a timestamp (ISO `YYYY-MM-DD` fragment of the
permissive parser); `none` is a parse failure, which `errors="coerce"`
turns into `NaT`. -/
def parseTs (s : String) : Option ℤ :=
  if s.toList.all tsChar then
    match s.toList with
    | [y1, y2, y3, y4, '-', m1, m2, '-', d1, d2] =>
      if [y1, y2, y3, y4, m1, m2, d1, d2].all Char.isDigit then
        let y : ℤ := digitsVal [y1, y2, y3, y4]
        let m := digitsVal [m1, m2]
        let d := digitsVal [d1, d2]
        if 1 ≤ m ∧ m ≤ 12 ∧ 1 ≤ d ∧ d ≤ daysInMonth y m then
          some (daysFromCivil y m d * nsPerDay)
        else none
      else none
    | _ => none
  else none

/-! ## Columns: the pandas dtype model -/

/-- A pandas column: dtype together with its cells. -/
inductive PdCol
  | obj (cells : List (Option String))
  | nums (cells : List (Option ℚ))
  | dts (cells : List (Option ℤ))
  deriving DecidableEq

/-- The semantic type of a column, read off its dtype. -/
inductive SType
  | timestamp
  | numeric
  | text
  deriving DecidableEq

/-- Semantic type of a normalized column: `datetime64` is timestamp,
`int64`/`float64` numeric, `object` text. -/
def semanticType : PdCol → SType
  | .dts _ => .timestamp
  | .nums _ => .numeric
  | .obj _ => .text

/-- Number of cells of a column. -/
def numCells : PdCol → Nat
  | .obj cs => cs.length
  | .nums cs => cs.length
  | .dts cs => cs.length

/-! ## Reading a raw column (`pd.read_csv(..., na_values=['NA','N/A','missing'])`)

A raw column is the list of its string fields as split from the file. Parsing
maps each sentinel token to `NaN` (`na_values` plus the pandas defaults) and
then infers the dtype: a column whose non-null fields all parse numerically
becomes numeric, a header-only (zero-row) column is `object`, anything else is
`object`. (Boolean inference and infinities are outside the model.) -/

/-- The `read_csv` null sentinels: pandas defaults together with the
explicit `na_values=['NA', 'N/A', 'missing']` of line 18. -/
def naTokens : List String :=
  ["", "#N/A", "#N/A N/A", "#NA", "-NaN", "-nan", "<NA>", "N/A", "NA",
   "NULL", "NaN", "None", "n/a", "nan", "null", "missing"]

/-- Sentinel conversion: a raw field becomes `NaN` iff it is a sentinel. -/
def naCell (f : String) : Option String :=
  if f ∈ naTokens then none else some f

/-- Dtype inference of `read_csv` on one column of raw fields. -/
def readCol (fields : List String) : PdCol :=
  let cells := fields.map naCell
  if fields = [] then .obj []
  else if cells.all (fun c => match c with
    | none => true
    | some s => (parseNum s).isSome) then
    .nums (cells.map fun c => match c with
      | none => none
      | some s => (parseNum s).getD none)
  else .obj cells

/-! ## The two per-column passes of `preprocess_and_save`

Lines 28–30 (`for col in df.select_dtypes(include=['object']): df[col] =
df[col].astype(str).replace({r'"': '""'}, regex=True)`) run first: every
`object` column is string-converted (`NaN` becomes the string `"nan"`) and
quote-doubled. Lines 33–43 run second: a column whose name contains `date`
(case-insensitively) is coerced with `pd.to_datetime(errors='coerce')`;
otherwise an `object` column is tentatively coerced with `pd.to_numeric`,
a failure (`ValueError`/`TypeError`) leaving it unchanged. -/

/-- The sanitization pass of lines 28–30 on one column: only `object`-dtype
columns are touched; each cell is string-converted and quote-doubled. -/
def sanitizeCol : PdCol → PdCol
  | .obj cells => .obj (cells.map fun c => some (sanitize (cellStr c)))
  | c => c

/-- `'date' in col.lower()`: substring test after lowercasing. -/
def hasInfix (p : List Char) : List Char → Bool
  | [] => p = []
  | c :: cs => p.isPrefixOf (c :: cs) || hasInfix p cs

/-- The date-column trigger of line 34. -/
def hasDate (name : String) : Bool :=
  hasInfix "date".toList (name.toList.map Char.toLower)

/-- `pd.to_datetime(df[col], errors='coerce')`: strings go through the
permissive parser (failure ↦ `NaT`), numeric cells are nanoseconds since the
epoch (fractions truncated), `NaN`/`NaT` stay null. Result dtype is
`datetime64[ns]` regardless of how many cells parsed. -/
def toDatetime : PdCol → List (Option ℤ)
  | .obj cells => cells.map fun c => c.bind parseTs
  | .nums cells => cells.map fun c => c.map Rat.floor
  | .dts cells => cells

/-- `pd.to_numeric` on an `object` column: `none` models the raised
`ValueError`; an empty column converts to an empty numeric column (pandas
returns an empty float array); otherwise every string cell must parse. -/
def toNumericObj (cells : List (Option String)) : Option (List (Option ℚ)) :=
  if cells = [] then some []
  else if cells.all (fun c => match c with
    | none => true
    | some s => (parseNum s).isSome) then
    some (cells.map fun c => match c with
      | none => none
      | some s => (parseNum s).getD none)
  else none

/-- The coercion pass of lines 33–43 on one column (given its name): the
embedding of the spec's `infer_and_coerce`. -/
def inferCol (name : String) (c : PdCol) : PdCol :=
  if hasDate name then .dts (toDatetime c)
  else
    match c with
    | .obj cells =>
      match toNumericObj cells with
      | some qs => .nums qs
      | none => .obj cells
    | c => c

/-- Normalization of one raw column as `preprocess_and_save` performs it:
read, sanitize (lines 28–30), then coerce (lines 33–43). -/
def normCol (name : String) (fields : List String) : PdCol :=
  inferCol name (sanitizeCol (readCol fields))

/-- Normalization of a whole raw table (ordered columns of named raw fields);
column names and order are untouched. -/
def normTable (raw : List (String × List String)) : List (String × PdCol) :=
  raw.map fun c => (c.1, normCol c.1 c.2)

/-! ## Staging writer (lines 46–49)

Modelled from the spec: `tempfile.NamedTemporaryFile(delete=False,
suffix=".csv")` is an external library call, not code of this repository; the
spec requires "a fresh uniquely-named temporary location each call — never
overwrites or reuses a previous artifact". The model keeps the set of
existing artifact names as the state and picks a name distinct from every
existing one (realized by exceeding every existing length); the created file
persists (`delete=False`, and the program never removes it). -/

/-- Length of the longest name in use. -/
def maxLen (used : List String) : Nat :=
  used.foldr (fun s a => max s.length a) 0

/-- Modelled from the spec: the fresh name the OS hands out — any name
distinct from every existing file name. -/
def freshName (used : List String) : String :=
  ⟨List.replicate (maxLen used + 1) 'a'⟩

/-- Modelled from the spec: one staging call — create a fresh uniquely-named
artifact, return its path and the new set of existing files. -/
def stage (used : List String) : String × List String :=
  (freshName used, freshName used :: used)

/-! ## Serializing the staged artifact (`df.to_csv(index=False, quoting=csv.QUOTE_ALL)`)

Every record (the header of column names, then one record per row) is written
as comma-separated fields, each field wrapped in `"` with its interior `"`
characters doubled (`QUOTE_ALL` + `doublequote=True`). Null cells are written
as the empty field (`na_rep=''`); numeric and timestamp cells by their decimal
and civil-date renderings (the textual rendering of the model values). -/

/-- Pad a digit string on the left with zeros to a given width. -/
def padZeros (k : Nat) (s : String) : String :=
  ⟨List.replicate (k - s.length) '0'⟩ ++ s

/-- Decimal rendering of a model rational (pandas prints float columns in
decimal; the fraction fallback is unreachable for pipeline values, whose
denominators always divide a power of ten). -/
def decRepr (q : ℚ) : String :=
  let sgn := if q.num < 0 then "-" else ""
  let a := q.num.natAbs
  match (List.range 40).find? fun k => 10 ^ k % q.den = 0 with
  | some k =>
    let scaled := a * (10 ^ k / q.den)
    if k = 0 then sgn ++ toString scaled ++ ".0"
    else sgn ++ toString (scaled / 10 ^ k) ++ "." ++ padZeros k (toString (scaled % 10 ^ k))
  | none => sgn ++ toString a ++ "/" ++ toString q.den

/-- Civil date of a day count from the epoch (inverse of `daysFromCivil`). -/
def civilFromDays (z : ℤ) : ℤ × Nat × Nat :=
  let z' := z + 719468
  let era := (if 0 ≤ z' then z' else z' - 146096).tdiv 146097
  let doe := (z' - era * 146097).toNat
  let yoe := (doe - doe / 1460 + doe / 36524 - doe / 146096) / 365
  let doy := doe - (365 * yoe + yoe / 4 - yoe / 100)
  let mp := (5 * doy + 2) / 153
  let d := doy - (153 * mp + 2) / 5 + 1
  let m := if mp < 10 then mp + 3 else mp - 9
  ((era * 400 + yoe : ℤ) + (if m ≤ 2 then 1 else 0), m, d)

/-- Rendering of a timestamp cell (`YYYY-MM-DD HH:MM:SS`, the `datetime64`
second-resolution text form; sub-second residue is dropped). -/
def tsRepr (n : ℤ) : String :=
  let day := n.ediv nsPerDay
  let secs := ((n.emod nsPerDay).tdiv 1000000000).toNat
  let c := civilFromDays day
  toString c.1 ++ "-" ++ padZeros 2 (toString c.2.1) ++ "-" ++ padZeros 2 (toString c.2.2) ++
    " " ++ padZeros 2 (toString (secs / 3600)) ++ ":" ++
    padZeros 2 (toString (secs / 60 % 60)) ++ ":" ++ padZeros 2 (toString (secs % 60))

/-- The serialized text of every cell of a column, in row order. -/
def serCol : PdCol → List String
  | .obj cs => cs.map fun c => c.getD ""
  | .nums cs => cs.map fun c => (c.map decRepr).getD ""
  | .dts cs => cs.map fun c => (c.map tsRepr).getD ""

/-- Number of rows of a table (its columns share one length). -/
def numRows : List (String × PdCol) → Nat
  | [] => 0
  | c :: _ => numCells c.2

/-- The records of a table in row order: row `i` lists the serialized cell
`i` of every column, in column order. -/
def rowsOf (cols : List (String × PdCol)) : List (List String) :=
  (List.range (numRows cols)).map fun i => cols.map fun c => (serCol c.2).getD i ""

/-- One written record: every field quote-wrapped with interior quotes
doubled, fields joined by commas. -/
def lineOfFields : List (List Char) → List Char
  | [] => []
  | [f] => '"' :: dq f ++ ['"']
  | f :: fs => '"' :: dq f ++ '"' :: ',' :: lineOfFields fs

/-- String form of one written record. -/
def lineOfFieldsS (fields : List String) : String :=
  ⟨lineOfFields (fields.map String.toList)⟩

/-- The staged artifact: header record of the column names, then one record
per row. -/
def writeCsv (cols : List (String × PdCol)) : List String :=
  lineOfFieldsS (cols.map Prod.fst) :: (rowsOf cols).map lineOfFieldsS

/-! ## A standard delimited-text reader for the staged form

Parses one fully-quoted comma-separated record (the exact shape `QUOTE_ALL`
emits): each field is `"`-wrapped, a doubled `""` inside a field is one
literal `"`. -/

/-- Consume a field body after its opening quote; returns the field and the
remaining fields of the record. -/
def parseInside : List Char → Option (List Char × List (List Char))
  | [] => none
  | c :: rest =>
    if c = '"' then
      match rest with
      | [] => some ([], [])
      | d :: rest2 =>
        if d = '"' then (parseInside rest2).map fun p => ('"' :: p.1, p.2)
        else if d = ',' then
          match rest2 with
          | '"' :: rest3 => (parseInside rest3).map fun p => ([], p.1 :: p.2)
          | _ => none
        else none
    else (parseInside rest).map fun p => (c :: p.1, p.2)

/-- Parse one record into its fields. -/
def parseLine : List Char → Option (List (List Char))
  | [] => none
  | c :: rest =>
    if c = '"' then (parseInside rest).map fun p => p.1 :: p.2
    else none

/-- Parse one record, at string level. -/
def parseLineS (s : String) : Option (List String) :=
  (parseLine s.toList).map fun fs => fs.map fun f => (⟨f⟩ : String)

/-! ## The whole pipeline (`preprocess_and_save`)

Dispatch on the filename suffix (lines 16–25): a name ending in `.csv` or
`.xlsx` is parsed into a table (the two parsers are modelled alike — both
read named columns of raw fields under the same sentinel handling), anything
else reports an unsupported format and returns `(None, None, None)` before
any file is created. On success the normalized table is staged to a fresh
artifact and the path, the column names and the table are returned. -/

/-- Suffix test (`str.endswith`). -/
def endsWithB (s suffix : String) : Bool :=
  suffix.toList.isSuffixOf s.toList

/-- `preprocess_and_save`, over the staging state (the set of files that
exist). Returns the result triple (path, column names, normalized table) —
`none` for the `(None, None, None)` failure return — and the new staging
state; a failure creates no file. -/
def preprocess_and_save (used : List String) (filename : String)
    (raw : List (String × List String)) :
    Option (String × List String × List (String × PdCol)) × List String :=
  if endsWithB filename ".csv" ∨ endsWithB filename ".xlsx" then
    let tbl := normTable raw
    let st := stage used
    (some (st.1, raw.map Prod.fst, tbl), st.2)
  else (none, used)

/-! ## Basic lemmas -/

/-- Anything ever in use is no longer than the longest name in use. -/
theorem length_le_maxLen {s : String} : ∀ {used : List String}, s ∈ used →
    s.length ≤ maxLen used := by
  intro used h
  induction used with
  | nil => cases h
  | cons u us ih =>
    rcases List.mem_cons.mp h with rfl | h'
    · exact le_max_left _ _
    · exact le_trans (ih h') (le_max_right _ _)

/-- The fresh name is longer than the longest name in use. -/
theorem freshName_length (used : List String) :
    (freshName used).length = maxLen used + 1 := by
  simp [freshName, String.length]

/-- The fresh name is not an existing file name. -/
theorem freshName_not_mem (used : List String) : freshName used ∉ used := by
  intro h
  have := length_le_maxLen h
  rw [freshName_length] at this
  omega

/-! ## Claims C7 and C8 -/

/-- C7: across any two calls to the Staging Writer within the same process
lifetime, the returned artifact paths are distinct, and a previously created
artifact is never overwritten (the returned path is no existing file's).
Stated over an arbitrary starting set of existing files `used`; the second
call starts from the state the first call leaves. -/
theorem claim7_staging_paths_distinct (used : List String) :
    (stage used).1 ∉ used ∧ (stage (stage used).2).1 ≠ (stage used).1 := by
  constructor
  · exact freshName_not_mem used
  · intro h
    have hm : (stage used).1 ∈ (stage used).2 := List.mem_cons_self _ _
    rw [← h] at hm
    exact freshName_not_mem (stage used).2 hm

/-- C8: a filename ending in neither `.csv` nor `.xlsx` makes
`preprocess_and_save` return the failure triple — no artifact — and leaves
the set of files on durable storage unchanged (no file, not even a partial
one, is created). -/
theorem claim8_unsupported_format (used : List String) (filename : String)
    (raw : List (String × List String))
    (h1 : endsWithB filename ".csv" = false)
    (h2 : endsWithB filename ".xlsx" = false) :
    preprocess_and_save used filename raw = (none, used) := by
  simp [preprocess_and_save, h1, h2]

/-- C8 witness: `data.txt` is rejected with no artifact and no file created. -/
theorem claim8_witness :
    preprocess_and_save [] "data.txt" [("a", ["1"])] = (none, []) :=
  claim8_unsupported_format [] "data.txt" [("a", ["1"])] (by decide) (by decide)

/-! ## Claims C2 and C3: the coercion pass -/

/-- C2: for every column whose name contains `date` case-insensitively, the
coercion pass (`infer_and_coerce`) yields semantic type timestamp whatever
the cells hold — even when every cell ends up null — and on a string column
it parses every value, mapping each parse failure (and each null) to null. -/
theorem claim2_date_columns (name : String) (c : PdCol)
    (hd : hasDate name = true) :
    semanticType (inferCol name c) = .timestamp ∧
    ∀ cells, c = .obj cells →
      inferCol name c = .dts (cells.map fun x => x.bind parseTs) := by
  constructor
  · simp [inferCol, hd, semanticType]
  · rintro cells rfl
    simp [inferCol, hd, toDatetime]

/-- C2 witness: a date-named column with one parseable value, one
unparseable value and one null. -/
theorem claim2_date_columns_witness :
    semanticType (inferCol "Order_Date" (.obj [some "2024-01-02", some "hello", none]))
      = .timestamp ∧
    ∀ cells, (PdCol.obj [some "2024-01-02", some "hello", none]) = .obj cells →
      inferCol "Order_Date" (.obj [some "2024-01-02", some "hello", none])
        = .dts (cells.map fun x => x.bind parseTs) :=
  claim2_date_columns "Order_Date" (.obj [some "2024-01-02", some "hello", none])
    (by decide)

/-- C3: for a column whose name lacks `date`, the coercion pass turns an
`object` column every non-null value of which parses numerically into the
numeric column of the parses (nulls staying null), and leaves an `object`
column with any unparseable non-null value untouched — semantic type text,
values left as the strings they were. -/
theorem claim3_numeric_or_text (name : String) (cells : List (Option String))
    (hd : hasDate name = false) :
    ((∀ c ∈ cells, ∀ s, c = some s → (parseNum s).isSome = true) →
      inferCol name (.obj cells) =
        .nums (cells.map fun c => match c with
          | none => none
          | some s => (parseNum s).getD none) ∧
      semanticType (inferCol name (.obj cells)) = .numeric) ∧
    ((∃ c ∈ cells, ∃ s, c = some s ∧ parseNum s = none) →
      inferCol name (.obj cells) = .obj cells ∧
      semanticType (inferCol name (.obj cells)) = .text) := by
  constructor
  · intro hall
    have : toNumericObj cells = some (cells.map fun c => match c with
        | none => none
        | some s => (parseNum s).getD none) := by
      unfold toNumericObj
      rcases eq_or_ne cells [] with rfl | hne
      · simp
      · have : cells.all (fun c => match c with
            | none => true
            | some s => (parseNum s).isSome) = true := by
          refine List.all_eq_true.mpr fun c hc => ?_
          cases c with
          | none => rfl
          | some s => exact hall _ hc s rfl
        simp [hne, this]
    simp [inferCol, hd, this, semanticType]
  · rintro ⟨c, hc, s, rfl, hfail⟩
    have hne : cells ≠ [] := List.ne_nil_of_mem hc
    have : toNumericObj cells = none := by
      unfold toNumericObj
      have : cells.all (fun c => match c with
          | none => true
          | some s => (parseNum s).isSome) = false := by
        refine List.all_eq_false.mpr ⟨some s, hc, ?_⟩
        simp [hfail]
      simp [hne, this]
    simp [inferCol, hd, this, semanticType]

/-- C3 witness: `["1", "3.5", null]` coerces to numeric with the parsed
values. -/
theorem claim3_numeric_or_text_witness :
    inferCol "amount" (.obj [some "1", some "3.5", none]) =
      .nums ([some "1", some "3.5", none].map fun c => match c with
        | none => none
        | some s => (parseNum s).getD none) ∧
    semanticType (inferCol "amount" (.obj [some "1", some "3.5", none])) = .numeric :=
  (claim3_numeric_or_text "amount" [some "1", some "3.5", none] (by decide)).1
    (by
      intro c hc s hcs
      subst hcs
      simp only [List.mem_cons, List.not_mem_nil, or_false] at hc
      rcases hc with h | h | h
      · injection h with h; subst h; decide
      · injection h with h; subst h; decide
      · simp at h)

/-! ## Claims C10, C4 and C5: sentinel and empty columns, null handling -/

/-- C10 counterexample: the claim says an empty (zero-row) column whose name
lacks `date` gets semantic type text; in the code `pd.to_numeric` converts
the empty `object` column to an empty numeric (float) column, so the type is
numeric, not text. -/
theorem claim10_empty_column_cex :
    semanticType (normCol "note" []) ≠ SType.text := by decide

/-- C10 amended: an empty (zero-row) column whose name lacks `date`
normalizes without error to an empty column of semantic type numeric (not
text): `read_csv` leaves a header-only column as `object` and `to_numeric`
converts the empty column to an empty float column. -/
theorem claim10_empty_column (name : String) (hd : hasDate name = false) :
    normCol name [] = .nums [] ∧ semanticType (normCol name []) = .numeric := by
  simp [normCol, readCol, sanitizeCol, inferCol, toNumericObj, hd, semanticType]

/-- C10 witness: the empty column named `x`. -/
theorem claim10_empty_column_witness :
    normCol "x" [] = .nums [] ∧ semanticType (normCol "x" []) = .numeric :=
  claim10_empty_column "x" (by decide)

/-- C4 counterexample: the claim says a column of only the sentinel strings
`NA`/`N/A`/`missing` (name lacking `date`) normalizes to type text; in the
code the column is all-`NaN` and therefore of float dtype — semantic type
numeric, not text. -/
theorem claim4_sentinel_column_cex :
    semanticType (normCol "x" ["NA", "N/A", "missing"]) ≠ SType.text := by decide

/-- C4 amended: a non-empty column of only the sentinel strings
`NA`/`N/A`/`missing` whose name lacks `date` normalizes without error to an
all-null column — but of semantic type numeric (the all-`NaN` column is
float-typed), not text. -/
theorem claim4_sentinel_column (name : String) (fields : List String)
    (hd : hasDate name = false) (hne : fields ≠ [])
    (hs : ∀ f ∈ fields, f = "NA" ∨ f = "N/A" ∨ f = "missing") :
    normCol name fields = .nums (fields.map fun _ => none) ∧
    semanticType (normCol name fields) = .numeric := by
  have hcells : fields.map naCell = fields.map fun _ => none := by
    refine List.map_congr_left fun f hf => ?_
    rcases hs f hf with rfl | rfl | rfl <;> decide
  have hread : readCol fields = .nums (fields.map fun _ => none) := by
    unfold readCol
    rw [hcells]
    have hall : (fields.map fun _ => (none : Option String)).all (fun c => match c with
        | none => true
        | some s => (parseNum s).isSome) = true := by
      refine List.all_eq_true.mpr fun c hc => ?_
      rcases List.mem_map.mp hc with ⟨f, _, rfl⟩
      rfl
    simp [hne, hall, List.map_map]
  rw [normCol, hread]
  simp [sanitizeCol, inferCol, hd, semanticType]

/-- C4 witness: the column `x` of exactly the three sentinel strings. -/
theorem claim4_sentinel_column_witness :
    normCol "x" ["NA", "N/A", "missing"] =
      .nums (["NA", "N/A", "missing"].map fun _ => none) ∧
    semanticType (normCol "x" ["NA", "N/A", "missing"]) = .numeric :=
  claim4_sentinel_column "x" ["NA", "N/A", "missing"] (by decide) (by decide)
    (by decide)

/-- C5: the normalized table does not represent every missing cell by a null
marker: in a text column, a cell that was a sentinel token in the input
(here `NA`) surfaces as the literal non-null string `nan` — `astype(str)` at
line 30 stringifies the column's `NaN`s before coercion. The failing input
is the column `c` with raw fields `["NA", "abc"]`. -/
theorem claim5_nan_placeholder :
    normCol "c" ["NA", "abc"] = .obj [some "nan", some "abc"] := by decide

/-! ## Claim C1: order of sanitization and inference

The code runs the sanitizer over every `object` column *before* inference
(lines 28–30 before 33–43); the claim states the opposite order with the
sanitizer restricted to the columns inferred as text. The next definitions
and lemmas compare the code's pipeline with an inference-first pipeline. -/

/-- The claim's sanitization stage as specified: the Sanitizer runs over the
cells of text columns only, leaves null cells null and does not touch
numeric or timestamp columns. -/
def sanitizeTextOnly : PdCol → PdCol
  | .obj cells => .obj (cells.map (Option.map sanitize))
  | c => c

theorem dq_of_not_mem : ∀ {cs : List Char}, '"' ∉ cs → dq cs = cs
  | [], _ => rfl
  | c :: cs, h => by
    have hc : ¬c = '"' := fun he => h (he ▸ List.mem_cons_self c cs)
    have ht : '"' ∉ cs := fun hm => h (List.mem_cons_of_mem c hm)
    simp [dq, hc, dq_of_not_mem ht]

theorem mem_dq : ∀ {cs : List Char}, '"' ∈ cs → '"' ∈ dq cs := by
  intro cs h
  induction cs with
  | nil => cases h
  | cons c cs ih =>
    rcases List.mem_cons.mp h with rfl | h'
    · simp [dq]
    · by_cases hc : c = '"' <;> simp [dq, hc, ih h']

/-- A string containing a quote character is not a numeral. -/
theorem parseDec_quote {cs : List Char} (h : '"' ∈ cs) : parseDec cs = none := by
  have : cs.all numChar = false := List.all_eq_false.mpr ⟨'"', h, by decide⟩
  unfold parseDec
  simp [this]

theorem quote_not_nan {s : String} (h : '"' ∈ s.toList) : ¬(s = "nan" ∨ s = "NaN") := by
  rintro (rfl | rfl) <;> exact absurd h (by decide)

theorem parseNum_quote {s : String} (h : '"' ∈ s.toList) : parseNum s = none := by
  unfold parseNum
  rw [if_neg (quote_not_nan h), parseDec_quote h]
  rfl

theorem mk_toList (s : String) : (⟨s.toList⟩ : String) = s := rfl

theorem sanitize_of_not_mem {s : String} (h : '"' ∉ s.toList) : sanitize s = s := by
  unfold sanitize
  rw [dq_of_not_mem h]
  exact mk_toList s

/-- Quote-doubling never changes the result of the numeric parser. -/
theorem parseNum_sanitize (s : String) : parseNum (sanitize s) = parseNum s := by
  by_cases h : '"' ∈ s.toList
  · rw [parseNum_quote (show '"' ∈ (sanitize s).toList from mem_dq h),
      parseNum_quote h]
  · rw [sanitize_of_not_mem h]

/-- A string containing a quote character is not a date. -/
theorem parseTs_quote {s : String} (h : '"' ∈ s.toList) : parseTs s = none := by
  have hall : s.toList.all tsChar = false := List.all_eq_false.mpr ⟨'"', h, by decide⟩
  unfold parseTs
  rw [hall]
  rfl

/-- Quote-doubling never changes the result of the date parser. -/
theorem parseTs_sanitize (s : String) : parseTs (sanitize s) = parseTs s := by
  by_cases h : '"' ∈ s.toList
  · rw [parseTs_quote (show '"' ∈ (sanitize s).toList from mem_dq h), parseTs_quote h]
  · rw [sanitize_of_not_mem h]

/-- Sanitizing every cell changes no cell's parseability. -/
theorem allP_sanitized : ∀ cells : List (Option String),
    ((cells.map fun c => some (sanitize (cellStr c))).all fun c =>
      match c with
      | none => true
      | some s => (parseNum s).isSome) =
    (cells.all fun c =>
      match c with
      | none => true
      | some s => (parseNum s).isSome)
  | [] => rfl
  | c :: cs => by
    simp only [List.map_cons, List.all_cons, allP_sanitized cs]
    congr 1
    cases c with
    | none =>
      show (parseNum (sanitize (cellStr none))).isSome = true
      decide
    | some s =>
      show (parseNum (sanitize s)).isSome = (parseNum s).isSome
      rw [parseNum_sanitize]

/-- Sanitizing every cell changes no cell's parsed numeric value. -/
theorem conv_sanitized : ∀ cells : List (Option String),
    ((cells.map fun c => some (sanitize (cellStr c))).map fun c =>
      match c with
      | none => none
      | some s => (parseNum s).getD none) =
    (cells.map fun c =>
      match c with
      | none => none
      | some s => (parseNum s).getD none)
  | [] => rfl
  | c :: cs => by
    simp only [List.map_cons, conv_sanitized cs]
    congr 1
    cases c with
    | none =>
      show (parseNum (sanitize (cellStr none))).getD none = none
      decide
    | some s =>
      show (parseNum (sanitize s)).getD none = (parseNum s).getD none
      rw [parseNum_sanitize]

/-- The numeric-conversion attempt cannot tell a sanitized column from the
original: string conversion plus quote-doubling changes neither whether
every cell parses nor the parsed values. -/
theorem toNumericObj_sanitized (cells : List (Option String)) :
    toNumericObj (cells.map fun c => some (sanitize (cellStr c))) =
      toNumericObj cells := by
  unfold toNumericObj
  rcases eq_or_ne cells [] with rfl | hne
  · simp
  · have hmapne : cells.map (fun c => some (sanitize (cellStr c))) ≠ [] := by
      simpa using hne
    rw [if_neg hmapne, if_neg hne, allP_sanitized cells]
    by_cases hall : (cells.all fun c =>
        match c with
        | none => true
        | some s => (parseNum s).isSome) = true
    · rw [if_pos hall, if_pos hall, conv_sanitized cells]
    · rw [if_neg hall, if_neg hall]

/-- Sanitizing first (as the code does) and coercing first commute, where
the sanitization applied after coercion is the code's own (lines 28–30):
text columns only, nulls stringified to `nan`, quotes doubled. -/
theorem sanitizeCol_inferCol_comm (name : String) (c : PdCol) :
    inferCol name (sanitizeCol c) = sanitizeCol (inferCol name c) := by
  cases c with
  | obj cells =>
    by_cases hd : hasDate name
    · simp only [sanitizeCol, inferCol, hd, if_true, toDatetime, List.map_map]
      congr 1
      refine List.map_congr_left fun x _ => ?_
      cases x with
      | none =>
        show parseTs (sanitize (cellStr none)) = none
        decide
      | some s =>
        show parseTs (sanitize s) = parseTs s
        exact parseTs_sanitize s
    · simp only [sanitizeCol, inferCol, hd, if_false, toNumericObj_sanitized]
      cases h : toNumericObj cells with
      | some qs => simp [sanitizeCol]
      | none => simp [sanitizeCol]
  | nums cells => by_cases hd : hasDate name <;> simp [inferCol, sanitizeCol, hd, toDatetime]
  | dts cells => by_cases hd : hasDate name <;> simp [inferCol, sanitizeCol, hd, toDatetime]

/-- C1 counterexample: the pipeline is *not* "Type Inferencer first, then
Sanitizer on text columns only": on the column `x` with fields
`["NA", "y"]` the code's result (whose null became the string `nan` in the
sanitization pass that ran first) differs from inference-first followed by
the specified text-only Sanitizer. -/
theorem claim1_order_cex :
    normCol "x" ["NA", "y"] ≠
      sanitizeTextOnly (inferCol "x" (readCol ["NA", "y"])) := by decide

/-- C1 amended: the sanitizer pass (lines 28–30) runs before inference over
every `object` column — including ones later coerced to numeric or
timestamp — but it commutes with the coercion pass: the pipeline equals
inference on the raw parsed column followed by the code's sanitization of
just the text columns. In particular columns coerced to numeric or
timestamp carry no trace of sanitization, while text columns' cells are
sanitized — with null cells surfacing as the string `nan`. -/
theorem claim1_order (name : String) (fields : List String) :
    normCol name fields = sanitizeCol (inferCol name (readCol fields)) :=
  sanitizeCol_inferCol_comm name (readCol fields)

/-! ## Claims C6 and C9: the staged artifact and the delimited-text reader -/

/-- Reader step: a doubled quote inside a field is one literal quote. -/
theorem parseInside_qq (rest : List Char) :
    parseInside ('"' :: '"' :: rest) = (parseInside rest).map fun p => ('"' :: p.1, p.2) := by
  rw [parseInside.eq_def]
  simp

/-- Reader step: a lone closing quote ends the last field. -/
theorem parseInside_q_end : parseInside ['"'] = some ([], []) := rfl

/-- Reader step: closing quote, comma, opening quote — next field. -/
theorem parseInside_q_comma (rest : List Char) :
    parseInside ('"' :: ',' :: '"' :: rest) =
      (parseInside rest).map fun p => ([], p.1 :: p.2) := by
  rw [parseInside.eq_def]
  simp

/-- Reader step: an ordinary character is part of the field. -/
theorem parseInside_cons {c : Char} (hc : ¬c = '"') (rest : List Char) :
    parseInside (c :: rest) = (parseInside rest).map fun p => (c :: p.1, p.2) := by
  rw [parseInside.eq_def]
  simp [hc]

/-- Closing a quoted field after its (doubled) content: the reader
reconstructs exactly the field. -/
theorem parseInside_last : ∀ f : List Char, parseInside (dq f ++ ['"']) = some (f, [])
  | [] => parseInside_q_end
  | c :: f => by
    by_cases hc : c = '"'
    · subst hc
      rw [show dq ('"' :: f) ++ ['"'] = '"' :: '"' :: (dq f ++ ['"']) by simp [dq]]
      rw [parseInside_qq, parseInside_last f]
      rfl
    · rw [show dq (c :: f) ++ ['"'] = c :: (dq f ++ ['"']) by simp [dq, hc]]
      rw [parseInside_cons hc, parseInside_last f]
      rfl

/-- A quoted field followed by a comma and a further quoted field: the
reader reconstructs the field and recurses. -/
theorem parseInside_sep : ∀ f u : List Char,
    parseInside (dq f ++ '"' :: ',' :: '"' :: u) =
      (parseInside u).map fun p => (f, p.1 :: p.2)
  | [], u => by
    rw [show dq [] ++ '"' :: ',' :: '"' :: u = '"' :: ',' :: '"' :: u from rfl]
    rw [parseInside_q_comma]
  | c :: f, u => by
    by_cases hc : c = '"'
    · subst hc
      rw [show dq ('"' :: f) ++ '"' :: ',' :: '"' :: u
          = '"' :: '"' :: (dq f ++ '"' :: ',' :: '"' :: u) by simp [dq]]
      rw [parseInside_qq, parseInside_sep f u]
      cases parseInside u <;> rfl
    · rw [show dq (c :: f) ++ '"' :: ',' :: '"' :: u
          = c :: (dq f ++ '"' :: ',' :: '"' :: u) by simp [dq, hc]]
      rw [parseInside_cons hc, parseInside_sep f u]
      cases parseInside u <;> rfl

/-- Reader step: a record starts with an opening quote. -/
theorem parseLine_q (rest : List Char) :
    parseLine ('"' :: rest) = (parseInside rest).map fun p => p.1 :: p.2 := by
  rw [parseLine.eq_def]
  simp

/-- Every written record starts with an opening quote. -/
theorem lineOfFields_head (f : List Char) (fs : List (List Char)) :
    ∃ Y, lineOfFields (f :: fs) = '"' :: Y := by
  cases fs <;> exact ⟨_, rfl⟩

/-- Round trip of one record at character level: parsing the written record
recovers exactly the written fields. -/
theorem parseLine_lineOfFields : ∀ (fs : List (List Char)) (f : List Char),
    parseLine (lineOfFields (f :: fs)) = some (f :: fs)
  | [], f => by
    rw [show lineOfFields [f] = '"' :: (dq f ++ ['"']) from rfl,
      parseLine_q, parseInside_last f]
    rfl
  | g :: gs, f => by
    obtain ⟨Y, hY⟩ := lineOfFields_head g gs
    have ih := parseLine_lineOfFields gs g
    rw [hY, parseLine_q] at ih
    have hin : parseInside Y = some (g, gs) := by
      rcases Option.map_eq_some'.mp ih with ⟨p, hp, hpe⟩
      obtain ⟨p1, p2⟩ := p
      injection hpe with h1 h2
      subst h1
      subst h2
      exact hp
    rw [show lineOfFields (f :: g :: gs)
        = '"' :: (dq f ++ '"' :: ',' :: lineOfFields (g :: gs)) from rfl]
    rw [hY, parseLine_q, parseInside_sep f Y, hin]
    rfl

/-- Round trip of one record at string level. -/
theorem parseLineS_lineOfFieldsS (fields : List String) (h : fields ≠ []) :
    parseLineS (lineOfFieldsS fields) = some fields := by
  obtain ⟨f, fs, rfl⟩ := List.exists_cons_of_ne_nil h
  unfold parseLineS lineOfFieldsS
  rw [show (⟨lineOfFields ((f :: fs).map String.toList)⟩ : String).toList
      = lineOfFields ((f :: fs).map String.toList) from rfl,
    show (f :: fs).map String.toList = f.toList :: fs.map String.toList from rfl,
    parseLine_lineOfFields (fs.map String.toList) f.toList]
  simp only [Option.map_some', List.map_cons, List.map_map]
  rw [mk_toList f]
  congr 1
  rw [show ((fun l => (⟨l⟩ : String)) ∘ String.toList) = id from funext mk_toList,
    List.map_id]

theorem toNumericObj_length {cells : List (Option String)} {qs : List (Option ℚ)}
    (h : toNumericObj cells = some qs) : qs.length = cells.length := by
  unfold toNumericObj at h
  split at h
  · injection h with h
    subst h
    simp [*]
  · split at h
    · injection h with h
      subst h
      simp
    · cases h

theorem numCells_inferCol (name : String) (c : PdCol) :
    numCells (inferCol name c) = numCells c := by
  unfold inferCol
  by_cases hd : hasDate name
  · rw [if_pos hd]
    cases c <;> simp [toDatetime, numCells]
  · rw [if_neg hd]
    cases c with
    | obj cells =>
      cases h : toNumericObj cells with
      | some qs => simp [h, numCells, toNumericObj_length h]
      | none => simp [h, numCells]
    | nums cells => rfl
    | dts cells => rfl

theorem numCells_sanitizeCol (c : PdCol) : numCells (sanitizeCol c) = numCells c := by
  cases c <;> simp [sanitizeCol, numCells]

theorem numCells_readCol (fields : List String) :
    numCells (readCol fields) = fields.length := by
  simp only [readCol]
  split
  · simp_all [numCells]
  · split <;> simp [numCells]

/-- Normalization preserves the number of cells of every column. -/
theorem numCells_normCol (name : String) (fields : List String) :
    numCells (normCol name fields) = fields.length := by
  rw [normCol, numCells_inferCol, numCells_sanitizeCol, numCells_readCol]

theorem serCol_length (c : PdCol) : (serCol c).length = numCells c := by
  cases c <;> simp [serCol, numCells]

theorem rowsOf_length (cols : List (String × PdCol)) :
    (rowsOf cols).length = numRows cols := by
  simp [rowsOf]

theorem rowsOf_mem_length {cols : List (String × PdCol)} {r : List String}
    (h : r ∈ rowsOf cols) : r.length = cols.length := by
  unfold rowsOf at h
  rcases List.mem_map.mp h with ⟨i, _, rfl⟩
  simp

/-- Normalization preserves column names and their order. -/
theorem normTable_names (raw : List (String × List String)) :
    (normTable raw).map Prod.fst = raw.map Prod.fst := by
  unfold normTable
  rw [List.map_map]
  exact List.map_congr_left fun c _ => rfl

/-- C6: the staged artifact does not satisfy the round-trip law for text
cells: the text cell `a"b` is first sanitized to `a""b` (line 30), then
`to_csv` doubles the quotes again when quoting the field, so the staged
record is `"a""""b"` — and a standard delimited-text reader re-parses it to
the sanitized `a""b`, not the original `a"b`. -/
theorem claim6_artifact_roundtrip_bug :
    writeCsv [("c", normCol "c" ["a\"b"])] = ["\"c\"", "\"a\"\"\"\"b\""] ∧
    parseLineS "\"a\"\"\"\"b\"" = some ["a\"\"b"] ∧
    ("a\"\"b" : String) ≠ "a\"b" :=
  ⟨by with_unfolding_all rfl, by decide, by decide⟩

/-- C9: the staged artifact of every normalized table is one header record
followed by one record per source row; parsing each record with the
delimited-text reader (comma-separated, every field double-quote wrapped)
recovers the column names — in source order and spelling — and each row's
serialized cells in column order. -/
theorem claim9_staged_format (raw : List (String × List String)) (n : Nat)
    (hne : raw ≠ []) (hlen : ∀ c ∈ raw, c.2.length = n) :
    ((writeCsv (normTable raw)).map parseLineS
      = ((raw.map Prod.fst) :: rowsOf (normTable raw)).map some) ∧
    (rowsOf (normTable raw)).length = n ∧
    ∀ r ∈ rowsOf (normTable raw), r.length = raw.length := by
  have hrawlen : (normTable raw).length = raw.length := by simp [normTable]
  have hrows_len : ∀ r ∈ rowsOf (normTable raw), r.length = raw.length := by
    intro r hr
    rw [rowsOf_mem_length hr, hrawlen]
  have hn : numRows (normTable raw) = n := by
    obtain ⟨c, raw', rfl⟩ := List.exists_cons_of_ne_nil hne
    show numCells (normCol c.1 c.2) = n
    rw [numCells_normCol, hlen c (List.mem_cons_self _ _)]
  refine ⟨?_, by rw [rowsOf_length, hn], hrows_len⟩
  unfold writeCsv
  rw [List.map_cons, List.map_cons]
  congr 1
  · rw [← normTable_names raw]
    apply parseLineS_lineOfFieldsS
    intro h0
    exact hne (by simpa [normTable] using h0)
  · rw [List.map_map]
    refine List.map_congr_left fun r hr => ?_
    show parseLineS (lineOfFieldsS r) = some r
    apply parseLineS_lineOfFieldsS
    intro h0
    have hl := hrows_len r hr
    rw [h0] at hl
    exact hne (List.length_eq_zero.mp hl.symm)

/-- C9 witness: a two-column, two-row table. -/
theorem claim9_staged_format_witness :
    ((writeCsv (normTable [("id", ["1", "2"]), ("txt", ["a", "b"])])).map parseLineS
      = (([("id", ["1", "2"]), ("txt", ["a", "b"])].map Prod.fst)
          :: rowsOf (normTable [("id", ["1", "2"]), ("txt", ["a", "b"])])).map some) ∧
    (rowsOf (normTable [("id", ["1", "2"]), ("txt", ["a", "b"])])).length = 2 ∧
    ∀ r ∈ rowsOf (normTable [("id", ["1", "2"]), ("txt", ["a", "b"])]),
      r.length = [("id", ["1", "2"]), ("txt", ["a", "b"])].length :=
  claim9_staged_format [("id", ["1", "2"]), ("txt", ["a", "b"])] 2 (by decide)
    (by decide)

end DataAnalyst
